import Mathlib

/-!
Verification development for the FileTagAPI storage and derivation subsystem.

The definitions below are a shallow embedding of the Python source:
  - `secure_name` embeds `app.py`'s `secure_name` (including the exact
    behaviour of Python's `pathlib.Path(name).name`, which drops empty and
    `"."` components but keeps a trailing `".."`),
  - the filesystem is a finite association list from resolved path-segment
    lists to byte contents; `resolveComps` embeds lexical path resolution
    as performed by `Path.resolve()` (no symlinks),
  - the auth database embeds `auth.py` (`api_keys` rows and the
    `usage` table, which is keyed by the UNIQUE pair `(api_key, date)` and
    is therefore modelled as a function from key and date to count),
  - the endpoint models embed the LOCAL-mode (`USE_GCS` false) branches of
    `upload_file`, `files_json`, `files_list_template`, `download_file`,
    `optimize_endpoint` and `optimize_media_and_cache` in `app.py`.
External work (PIL resize, ffprobe/ffmpeg) is an injectable `Transcoder`;
the models count its invocations.  The random tag store of `tags_util.py`
is an injectable fallible function, mirroring how its exceptions would
propagate (or be caught) at each call site.
-/

deriving instance DecidableEq for Except

namespace FileTag

/-! ### NameCleaner: `secure_name` from app.py -/

/-- Characters kept by the regex `[^a-zA-Z0-9\-\._]` substitution in
`app.py` (`_filename_re`): ASCII letters, digits, `-`, `.` and `_`. -/
def allowedChar (c : Char) : Bool :=
  c.isAlpha || c.isDigit || c == ('-') || c == ('.') || c == ('_')

/-- Split a character list on `'/'`, keeping empty segments
(first argument is the reversed current segment). -/
def splitSlashCore (acc : List Char) : List Char → List (List Char)
  | [] => [acc.reverse]
  | c :: cs =>
    if c = ('/') then acc.reverse :: splitSlashCore [] cs
    else splitSlashCore (c :: acc) cs

/-- The components `pathlib.PurePosixPath` keeps from a raw string:
split on `'/'`, drop empty components and `"."` components (Python's
pathlib drops `"."` during parsing but keeps `".."`). -/
def pathParts (l : List Char) : List (List Char) :=
  (splitSlashCore [] l).filter (fun s => decide (s ≠ [] ∧ s ≠ [('.')]))

/-- Python `pathlib.Path(s).name`: the last kept component, or empty. -/
def pyName (l : List Char) : List Char :=
  (pathParts l).getLast?.getD []

/-- Replacement applied by `_filename_re.sub("_", name)` to one character. -/
def replChar (c : Char) : Char :=
  if allowedChar c then c else ('_')

/-- Function `secure_name` from app.py on character lists:
empty input maps to `"file"`; otherwise take the basename via
`Path(name).name` and replace each disallowed character by `'_'`. -/
def secure_nameCore (l : List Char) : List Char :=
  if l = [] then ("file").data
  else (pyName l).map replChar

/-- Function `secure_name` from app.py. -/
def secure_name (s : String) : String :=
  ⟨secure_nameCore s.data⟩

/-! ### `pathlib` stem/suffix -/

/-- Index of the last occurrence of `c` in `l`, if any
(Python's `str.rfind`). -/
def rfindIdx (l : List Char) (c : Char) : Option Nat :=
  ((List.range l.length).filter (fun i => l.get? i == some c)).getLast?

/-- Python pathlib split of a final component into `(stem, suffix)`:
the suffix starts at the last dot provided `0 < i < len - 1`. -/
def splitExt (n : List Char) : List Char × List Char :=
  match rfindIdx n ('.') with
  | some i => if 0 < i ∧ i < n.length - 1 then (n.take i, n.drop i) else (n, [])
  | none => (n, [])

/-- Python `pathlib.Path(s).stem`. -/
def pyStem (s : String) : String := ⟨(splitExt (pyName s.data)).1⟩

/-- Python `pathlib.Path(s).suffix`. -/
def pySuffix (s : String) : String := ⟨(splitExt (pyName s.data)).2⟩

/-! ### Kernel-evaluable string primitives

Python's `str.lower`, `str.startswith`, `in`, `str.split("/")` and
`"/".join`, written over the character lists of the strings (all inputs
here are ASCII file-name material, where Python's and these definitions'
behaviour coincide). -/

/-- Python `str.lower()` (ASCII). -/
def strLower (s : String) : String := ⟨s.data.map Char.toLower⟩

/-- Python `str.startswith(p)`. -/
def strStartsWith (s p : String) : Bool := p.data.isPrefixOf s.data

/-- Python `c in s` for a single character. -/
def strContains (s : String) (c : Char) : Bool := s.data.contains c

/-- Python `s.split("/")`. -/
def splitOnSlash (s : String) : List String :=
  (splitSlashCore [] s.data).map (fun l => ⟨l⟩)

/-! ### Decimal rendering of a counter (Python's `str(counter)`) -/

/-- Digit character for `d < 10` (codepoint 48 + d). -/
def digitCh (d : Nat) : Char := Char.ofNat (48 + d)

/-- Decimal digits of `n`, most significant first, with explicit fuel
(structural so that the kernel can evaluate it). -/
def natReprCore : Nat → Nat → List Char
  | 0, _ => []
  | fuel + 1, n =>
    if n < 10 then [digitCh n]
    else natReprCore fuel (n / 10) ++ [digitCh (n % 10)]

/-- Python's `str(n)` for a natural number. -/
def natRepr (n : Nat) : String := ⟨natReprCore (n + 1) n⟩

/-- Evaluate a decimal digit string back to a number. -/
def parseNat (l : List Char) : Nat :=
  l.foldl (fun a c => 10 * a + (c.toNat - 48)) 0

/-! ### Local filesystem model

Files are an association list from resolved path-segment lists to byte
contents; the head of the list shadows older entries, so writing is
`cons` (this models "create or overwrite at a path").  Every access goes
through `resolveComps`, the lexical resolution the operating system (and
`Path.resolve()`) applies to `"."`, `".."` and empty components. -/

abbrev Bytes := List Nat

abbrev FS := List (List String × Bytes)

/-- Lexical path resolution: skip empty and `"."` components, pop one
component on `".."` (staying at the root when already there). -/
def resolveComps (acc : List String) : List String → List String
  | [] => acc
  | c :: rest =>
    if c = ("") ∨ c = (".") then resolveComps acc rest
    else if c = ("..") then resolveComps acc.dropLast rest
    else resolveComps (acc ++ [c]) rest

/-- The string form of a path, as produced by `str(Path(...))`. -/
def pathStr (l : List String) : String :=
  ⟨(List.intersperse (("/").data) (l.map String.data)).flatten⟩

/-- Read the bytes stored at a path (resolving it first). -/
def fsFind (fs : FS) (p : List String) : Option Bytes :=
  (fs.find? (fun e => e.1 == resolveComps [] p)).map (fun e => e.2)

/-- Does a file exist at a path? -/
def fsExists (fs : FS) (p : List String) : Bool :=
  (fsFind fs p).isSome

/-- Create or overwrite the file at a path. -/
def fsWrite (fs : FS) (p : List String) (b : Bytes) : FS :=
  (resolveComps [] p, b) :: fs

/-- Names of the files directly inside a directory (newest first,
mirroring the mtime-descending iteration order over fresh writes). -/
def listDir (fs : FS) (dir : List String) : List String :=
  (fs.filter (fun e => e.1.dropLast == dir)).map
    (fun e => (e.1.getLast?.getD ("")))

/-! ### Auth model: `auth.py`

`api_keys` rows are `(company, api_key, daily_limit)`.  The `usage`
table has the UNIQUE key `(api_key, date)`, so it is modelled as a total
function from api key and date to count (an absent row behaves exactly
like count 0 in `increment_usage_and_check`). -/

structure AuthDB where
  keys : List (String × String × Nat)
  usage : String → String → Nat

/-- Function `get_key_record` from auth.py: the `api_keys` row for an api key. -/
def get_key_record (db : AuthDB) (api_key : String) :
    Option (String × String × Nat) :=
  db.keys.find? (fun r => r.2.1 == api_key)

/-- Function `create_api_key` from auth.py (`INSERT OR REPLACE` on the UNIQUE
`api_key` column: any conflicting row is replaced). -/
def create_api_key (db : AuthDB) (company api_key : String)
    (daily_limit : Nat) : AuthDB :=
  { db with keys := db.keys.filter (fun r => r.2.1 != api_key)
      ++ [(company, api_key, daily_limit)] }

/-- Function `increment_usage_and_check` from auth.py: ensure today's usage row
exists, add one to it, read the new count and the key's daily limit.
Returns `(ok, count, limit)` with `ok = (count ≤ limit)` and the updated
database (the increment is committed whether or not `ok`). -/
def increment_usage_and_check (db : AuthDB) (api_key today : String) :
    (Bool × Nat × Nat) × AuthDB :=
  let usage' : String → String → Nat := fun k d =>
    if k = api_key ∧ d = today then db.usage k d + 1 else db.usage k d
  let count := usage' api_key today
  let db' : AuthDB := { db with usage := usage' }
  match (db.keys.find? (fun r => r.2.1 == api_key)).map (fun r => r.2.2) with
  | none => ((false, count, 0), db')
  | some limit => ((decide (count ≤ limit), count, limit), db')

/-- Rejection reasons of the `verify_api_key` dependency in app.py. -/
inductive AuthFail
  | invalidKey
  | wrongCompany
  | quotaExceeded (count limit : Nat)
  deriving DecidableEq, Repr

/-- Function `verify_api_key` from app.py: look the key up, require that its
bound company equals the requested company, then increment-and-check
today's usage.  On success returns `(today's count, limit)`. -/
def verify_api_key (db : AuthDB) (company x_api_key today : String) :
    Except AuthFail (Nat × Nat) × AuthDB :=
  match get_key_record db x_api_key with
  | none => (Except.error AuthFail.invalidKey, db)
  | some rec =>
    if rec.1 ≠ company then (Except.error AuthFail.wrongCompany, db)
    else
      match increment_usage_and_check db x_api_key today with
      | ((ok, count, limit), db') =>
        if ok then (Except.ok (count, limit), db')
        else (Except.error (AuthFail.quotaExceeded count limit), db')

/-- Function `register_post` from app.py (the executed raw-sqlite branch: auth.py
exports no `get_key_record_for_company`, so the import fails and the
handler falls back to `SELECT api_key FROM api_keys WHERE company = ?`).
Identity is `secure_name(company).lower()`; an existing row's key is
returned unchanged, otherwise a fresh key is stored with daily limit
500. -/
def register_post (db : AuthDB) (company freshKey : String) :
    String × AuthDB :=
  let company_safe := strLower (secure_name company)
  match db.keys.find? (fun r => r.1 == company_safe) with
  | some r => (r.2.1, db)
  | none => (freshKey, create_api_key db company_safe freshKey 500)

/-! ### Upload (local branch of `upload_file` in app.py) -/

def MAX_UPLOAD_SIZE : Nat := 50 * 1024 * 1024

def ALLOWED_PREFIXES : List String := [("image/"), ("video/")]

def VIDEO_EXTS : List String :=
  [(".mp4"), (".webm"), (".ogg"), (".mov"), (".m4v"), (".avi"),
   (".flv"), (".mkv")]

/-- The candidate file names tried by the anti-overwrite loop:
the original name first, then `stem_1.ext`, `stem_2.ext`, ... -/
def candName (base ext : String) : Nat → String
  | 0 => base ++ ext
  | k + 1 => base ++ ("_") ++ natRepr (k + 1) ++ ext

/-- The `while target_path.exists()` loop of `upload_file`: starting at
candidate `k`, return the first candidate index whose name is free
(with explicit fuel; `fs.length + 2` is always enough, see
`findFreeIdx_free`). -/
def findFreeIdx (fs : FS) (dir : List String) (base ext : String) :
    Nat → Nat → Nat
  | k, 0 => k
  | k, fuel + 1 =>
    if fsExists fs (dir ++ [candName base ext k]) then
      findFreeIdx fs dir base ext (k + 1) fuel
    else k

/-- The local-filesystem write of `upload_file`: compute stem and suffix
of the chosen name, bump a numeric suffix until the target is free, then
write the bytes there.  Returns the final file name and the new
filesystem. -/
def upload_save_local (fs : FS) (company_safe survey_safe chosen_name : String)
    (contents : Bytes) : String × FS :=
  let dir := [("uploads"), company_safe, survey_safe]
  let base := pyStem chosen_name
  let ext := pySuffix chosen_name
  let k := findFreeIdx fs dir base ext 0 (fs.length + 2)
  let nm := candName base ext k
  (nm, fsWrite fs (dir ++ [nm]) contents)

/-- Error responses of the modelled endpoints (HTTP error classes). -/
inductive ApiErr
  | badRequest (msg : String)
  | unauthorized
  | forbidden
  | quotaExceeded (count limit : Nat)
  | payloadTooLarge
  | unsupportedType (ct : String)
  | tagStoreError (msg : String)
  | notFound
  | invalidPath
  | derivationFailed (msg : String)
  deriving DecidableEq, Repr

/-- Map a `verify_api_key` failure to the HTTP error it raises. -/
def authErr : AuthFail → ApiErr
  | AuthFail.invalidKey => ApiErr.unauthorized
  | AuthFail.wrongCompany => ApiErr.forbidden
  | AuthFail.quotaExceeded c l => ApiErr.quotaExceeded c l

/-- Successful upload response (the fields the claims talk about). -/
structure UploadResp where
  filename : String
  size : Nat
  download_url : String
  deriving DecidableEq, Repr

/-- The `upload_file` endpoint (local branch).  `tagAdd` is
`add_random_tags_for_file` from tags_util.py: in the source its call is
NOT wrapped in try/except, so a tag-store exception propagates after the
file was written; that is mirrored by the final `match`.  `filename_field`
and `orig_filename` use `""` for an absent/falsy value, matching Python
truthiness. -/
def upload_file (db : AuthDB) (fs : FS)
    (tagAdd : String → Except String (List String))
    (company survey user_id filename_field orig_filename : String)
    (contents : Bytes) (content_type x_api_key today : String) :
    Except ApiErr UploadResp × AuthDB × FS :=
  match verify_api_key db company x_api_key today with
  | (Except.error e, db') => (Except.error (authErr e), db', fs)
  | (Except.ok _, db') =>
    if survey = ("") ∨ user_id = ("") then
      (Except.error (ApiErr.badRequest ("survey and user_id are required")), db', fs)
    else
      let size := contents.length
      if size = 0 then (Except.error (ApiErr.badRequest ("Empty file")), db', fs)
      else if MAX_UPLOAD_SIZE < size then (Except.error ApiErr.payloadTooLarge, db', fs)
      else
        let ct := strLower content_type
        if ¬ (ALLOWED_PREFIXES.any (fun p => strStartsWith ct p)) then
          (Except.error (ApiErr.unsupportedType ct), db', fs)
        else
          let survey_safe := strLower (secure_name survey)
          let user_safe := secure_name user_id
          let desired0 :=
            if filename_field ≠ ("") then secure_name filename_field
            else secure_name (if orig_filename = ("") then ("upload") else orig_filename)
          let desired :=
            if ¬ (strContains desired0 ('.')) ∧ strContains ct ('/') then
              desired0 ++ (".") ++ (((splitOnSlash ct).getLast?).getD (""))
            else desired0
          let company_safe := strLower (secure_name company)
          let chosen_name := user_safe ++ ("_") ++ desired
          match upload_save_local fs company_safe survey_safe chosen_name contents with
          | (nm, fs') =>
            let resp_relative := pathStr [("uploads"), company_safe, survey_safe, nm]
            let resp_download := ("/api/v1/") ++ company_safe ++ ("/surveys/")
              ++ survey_safe ++ ("/download/") ++ nm
            match tagAdd resp_relative with
            | Except.error e => (Except.error (ApiErr.tagStoreError e), db', fs')
            | Except.ok _ => (Except.ok ⟨nm, size, resp_download⟩, db', fs')

/-- The `files_json` listing endpoint (local branch): quota-gated, lists
the survey directory, optional user filter, pagination, and a tag lookup
per file whose exceptions are NOT caught (they propagate). -/
def files_json (db : AuthDB) (fs : FS)
    (tagGet : String → Except String (List String))
    (company survey x_api_key today user_id : String) (limit offset : Nat) :
    Except ApiErr (List (String × List String)) × AuthDB :=
  match verify_api_key db company x_api_key today with
  | (Except.error e, db') => (Except.error (authErr e), db')
  | (Except.ok _, db') =>
    let survey_safe := strLower (secure_name survey)
    let company_safe := strLower (secure_name company)
    let names := listDir fs [("uploads"), company_safe, survey_safe]
    let names :=
      if user_id = ("") then names
      else names.filter (fun n => strStartsWith n ((secure_name user_id) ++ ("_")))
    let page := (names.drop offset).take limit
    match page.mapM (fun n =>
        (tagGet (pathStr [("uploads"), company_safe, survey_safe, n])).map
          (fun t => (n, t))) with
    | Except.error e => (Except.error (ApiErr.tagStoreError e), db')
    | Except.ok l => (Except.ok l, db')

/-- The `files_list_template` HTML listing (local branch): validates the
key and the company but performs NO usage increment, and its per-file
tag lookup IS wrapped in try/except, degrading to an empty tag list. -/
def files_list_template (db : AuthDB) (fs : FS)
    (tagGet : String → Except String (List String))
    (company survey api_key : String) :
    Except ApiErr (List (String × List String)) :=
  let survey_safe := strLower (secure_name survey)
  let company_safe := strLower (secure_name company)
  match get_key_record db api_key with
  | none => Except.error ApiErr.unauthorized
  | some rec =>
    if secure_name rec.1 ≠ company_safe then Except.error ApiErr.forbidden
    else
      Except.ok ((listDir fs [("uploads"), company_safe, survey_safe]).map
        (fun n =>
          (n, ((tagGet (pathStr [("uploads"), company_safe, survey_safe, n])).toOption.getD []))))

/-! ### DerivationCache: local branch of `optimize_media_and_cache` -/

/-- The external image/video work of the derivation pipeline (PIL
convert/resize/re-encode for images, ffprobe + ffmpeg for videos),
injectable as in spec §9; each field is one external invocation turning
source bytes into derivative bytes or a failure message. -/
structure Transcoder where
  imageOpt : Bytes → Except String Bytes
  videoOpt : Bytes → Except String Bytes

/-- Result of `optimize_media_and_cache`. -/
inductive OptResult
  | ok (addr : String)
  | notFound
  | failed (msg : String)
  deriving DecidableEq, Repr

/-- Function `optimize_media_and_cache` (local branch): the derivative is named
`opt_{stem}.mp4` for a video extension and `opt_{stem}.jpg` otherwise;
missing source raises FileNotFoundError; an existing derivative is
returned immediately with no work; otherwise the transcoder runs once
and the result is written.  The third component counts external
invocations. -/
def optimize_media_and_cache (T : Transcoder) (fs : FS)
    (company_safe survey_safe filename : String) :
    OptResult × FS × Nat :=
  let stem := pyStem filename
  let ext := strLower (pySuffix filename)
  let isVideo := VIDEO_EXTS.contains ext
  let opt_name :=
    if isVideo then ("opt_") ++ stem ++ (".mp4")
    else ("opt_") ++ stem ++ (".jpg")
  let src := [("uploads"), company_safe, survey_safe, filename]
  if ¬ (fsExists fs src = true) then (OptResult.notFound, fs, 0)
  else
    let outPath := [("uploads"), company_safe, survey_safe, ("optimized"), opt_name]
    let outAddr := pathStr outPath
    if fsExists fs outPath = true then (OptResult.ok outAddr, fs, 0)
    else
      let srcBytes := (fsFind fs src).getD []
      match (if isVideo then T.videoOpt srcBytes else T.imageOpt srcBytes) with
      | Except.ok b => (OptResult.ok outAddr, fsWrite fs outPath b, 1)
      | Except.error e => (OptResult.failed e, fs, 1)

/-- Combined mutable state of the service: the auth database and the
local uploads filesystem. -/
structure SysState where
  auth : AuthDB
  fs : FS

/-- Function `optimize_endpoint` (local branch).  The handler takes NO api key
and consults no auth state; it sanitizes company and survey, runs the
derivation, and turns an `uploads/...` address into the local download
route.  The returned state's auth component is the input's, untouched. -/
def optimize_endpoint (T : Transcoder) (st : SysState)
    (company survey filename : String) :
    (Except ApiErr String) × SysState :=
  let company_safe := strLower (secure_name company)
  let survey_safe := strLower (secure_name survey)
  match optimize_media_and_cache T st.fs company_safe survey_safe filename with
  | (OptResult.ok p, fs', _) =>
    let url :=
      if strStartsWith p ("uploads") then
        ("/api/v1/") ++ company_safe ++ ("/surveys/") ++ survey_safe
          ++ ("/download/optimized/") ++ String.mk (pyName p.data)
      else p
    (Except.ok url, { st with fs := fs' })
  | (OptResult.notFound, fs', _) =>
    (Except.error ApiErr.notFound, { st with fs := fs' })
  | (OptResult.failed e, fs', _) =>
    (Except.error (ApiErr.derivationFailed e), { st with fs := fs' })

/-! ### Download (local branch of `download_file`) -/

/-- Result of the local download route: `invalidPath` is the 400 raised
by the string-prefix confinement check BEFORE any filesystem access;
`file` carries the resolved path that is read and served. -/
inductive DownloadResult
  | invalidPath
  | notFound
  | file (p : List String) (b : Bytes)
  deriving DecidableEq, Repr

/-- Function `download_file` (local branch): resolve
`uploads/{company_safe}/{survey_safe}/{path}`, reject with 400 when the
resolved string does not START WITH the resolved base string (a plain
`str.startswith` check, no separator), otherwise serve the file at the
resolved path. -/
def download_file (fs : FS) (company survey path : String) :
    DownloadResult :=
  let company_safe := strLower (secure_name company)
  let survey_safe := strLower (secure_name survey)
  let base := resolveComps [] [("uploads"), company_safe, survey_safe]
  let candidate := resolveComps []
    ([("uploads"), company_safe, survey_safe] ++ splitOnSlash path)
  if ¬ (strStartsWith (pathStr candidate) (pathStr base)) then
    DownloadResult.invalidPath
  else
    match fsFind fs candidate with
    | some b => DownloadResult.file candidate b
    | none => DownloadResult.notFound

/-- The download route over the combined state: the handler takes no api
key and leaves the whole state untouched. -/
def download_endpoint (st : SysState) (company survey path : String) :
    DownloadResult × SysState :=
  (download_file st.fs company survey path, st)

/-! ### Quota counter under concurrency

`increment_usage_and_check` runs three separate sqlite statements on a
connection with `isolation_level=None` (autocommit): INSERT-or-pass,
`UPDATE count = count + 1`, `SELECT count`.  Each single statement is
atomic at the database, but nothing serializes the triple, so two
callers' statements may interleave.  The model below runs two threads,
each executing those three statements in order on one shared
`(api_key, date)` row, under an explicit schedule. -/

/-- One caller of `increment_usage_and_check`: its program counter over
the three statements, and the count its SELECT observed. -/
structure QThread where
  pc : Nat
  observed : Nat
  deriving DecidableEq, Repr

/-- Execute the thread's next statement on the shared usage row
(`none` = row absent).  pc 0: `INSERT ... VALUES (?, ?, 0)` with
IntegrityError swallowed; pc 1: `UPDATE count = count + 1`;
pc 2: `SELECT count` (0 if no row). -/
def qStep (row : Option Nat) (t : QThread) : Option Nat × QThread :=
  match t.pc with
  | 0 => ((match row with | none => some 0 | some c => some c), { t with pc := 1 })
  | 1 => (row.map (fun c => c + 1), { t with pc := 2 })
  | 2 => (row, { pc := 3, observed := row.getD 0 })
  | _ => (row, t)

/-- Shared row plus the two concurrent callers. -/
structure QSys where
  row : Option Nat
  t1 : QThread
  t2 : QThread
  deriving DecidableEq, Repr

/-- Run a schedule: `true` steps thread 1, `false` steps thread 2. -/
def qRun : QSys → List Bool → QSys
  | s, [] => s
  | s, w :: ws =>
    if w then
      match qStep s.row s.t1 with
      | (r, t) => qRun { s with row := r, t1 := t } ws
    else
      match qStep s.row s.t2 with
      | (r, t) => qRun { s with row := r, t2 := t } ws

/-- Whether a finished caller was accepted: `count <= limit`. -/
def qAccepted (limit : Nat) (t : QThread) : Bool :=
  decide (t.observed ≤ limit)

/-! ### Derived naming helpers and concrete fixtures -/

/-- The deterministic derivative name: `opt_{stem}.mp4` when the
(lowered) suffix is a recognized video extension, `opt_{stem}.jpg`
otherwise. -/
def optName (filename : String) : String :=
  if VIDEO_EXTS.contains (strLower (pySuffix filename)) then
    ("opt_") ++ pyStem filename ++ (".mp4")
  else ("opt_") ++ pyStem filename ++ (".jpg")

/-- The source path of an original object under the local store. -/
def srcPath (company_safe survey_safe filename : String) : List String :=
  [("uploads"), company_safe, survey_safe, filename]

/-- The path of the cached derivative of a source object. -/
def optPath (company_safe survey_safe filename : String) : List String :=
  [("uploads"), company_safe, survey_safe, ("optimized"), optName filename]

/-- The address string returned for a cached derivative. -/
def optAddr (company_safe survey_safe filename : String) : String :=
  pathStr (optPath company_safe survey_safe filename)

/-- An auth database with no keys registered at all. -/
def noKeysDb : AuthDB := ⟨[], fun _ _ => 0⟩

/-- A transcoder that succeeds and returns the source bytes unchanged. -/
def idTranscoder : Transcoder :=
  ⟨fun b => Except.ok b, fun b => Except.ok b⟩

/-- One tenant `acme` with key `K`, daily limit 500, and 500 requests
already counted on day `d0`. -/
def acmeDb : AuthDB :=
  ⟨[(("acme"), ("K"), 500)],
   fun k d => if k = ("K") ∧ d = ("d0") then 500 else 0⟩

/-- A filesystem holding one original image for tenant acme. -/
def acmeFs : FS := [([("uploads"), ("acme"), ("s1"), ("a.jpg")], [1, 2])]

/-- A filesystem whose only file lives OUTSIDE the collection root
`uploads/c/s`, in the sibling collection `sx` of the same tenant. -/
def siblingFs : FS := [([("uploads"), ("c"), ("sx"), ("secret.txt")], [9, 9])]

/-- A tag store whose every operation raises (e.g. the sqlite tags
database is locked). -/
def tagFail : String → Except String (List String) :=
  fun _ => Except.error ("db locked")

/-- What claim C3 asserts of one gated call: the counter for (key,
today) grows by exactly one and nothing else changes; the call is
accepted exactly when the new count is within the limit, and the
rejection reports the over-limit count; the increment is committed
either way and no counter ever decreases. -/
def quotaCallSpec (db : AuthDB) (company api_key today : String)
    (limit : Nat) : Prop :=
  match verify_api_key db company api_key today with
  | (r, db') =>
    let n := db.usage api_key today + 1
    db'.usage api_key today = n ∧
    (∀ k d, ¬ (k = api_key ∧ d = today) → db'.usage k d = db.usage k d) ∧
    (∀ k d, db.usage k d ≤ db'.usage k d) ∧
    db'.keys = db.keys ∧
    (n ≤ limit → r = Except.ok (n, limit)) ∧
    (limit < n → r = Except.error (AuthFail.quotaExceeded n limit))

/-- What claim C5 asserts of the derivation cache for one source:
at most one external invocation per call; an existing derivative is
returned as-is with no work and no state change; a successful call
returns the deterministic address and makes the next call for the same
source a pure cache hit returning the same address with zero work. -/
def derivationSpec (T : Transcoder) (fs : FS)
    (company_safe survey_safe filename : String) : Prop :=
  match optimize_media_and_cache T fs company_safe survey_safe filename with
  | (r1, fs1, w1) =>
    w1 ≤ 1 ∧
    (fsExists fs (optPath company_safe survey_safe filename) = true →
      r1 = OptResult.ok (optAddr company_safe survey_safe filename)
        ∧ fs1 = fs ∧ w1 = 0) ∧
    (∀ a, r1 = OptResult.ok a →
      a = optAddr company_safe survey_safe filename ∧
      optimize_media_and_cache T fs1 company_safe survey_safe filename
        = (OptResult.ok a, fs1, 0))

/-! ## Theorems -/

/-! ### Filesystem helper lemmas -/

theorem fsFind_fsWrite_self (fs : FS) (p : List String) (b : Bytes) :
    fsFind (fsWrite fs p b) p = some b := by
  unfold fsFind fsWrite
  rw [List.find?_cons]
  simp

theorem fsExists_fsWrite_self (fs : FS) (p : List String) (b : Bytes) :
    fsExists (fsWrite fs p b) p = true := by
  unfold fsExists
  rw [fsFind_fsWrite_self]
  rfl

theorem fsExists_fsWrite (fs : FS) (p q : List String) (b : Bytes)
    (h : fsExists fs q = true) : fsExists (fsWrite fs p b) q = true := by
  unfold fsExists fsFind at h
  unfold fsExists fsFind fsWrite
  rw [List.find?_cons]
  cases hh : ((resolveComps [] p, b).1 == resolveComps [] q) with
  | true => simp [hh]
  | false => simpa [hh] using h

theorem fsFind_fsWrite_ne (fs : FS) (p q : List String) (b : Bytes)
    (h : resolveComps [] q ≠ resolveComps [] p) :
    fsFind (fsWrite fs p b) q = fsFind fs q := by
  unfold fsFind fsWrite
  rw [List.find?_cons]
  have hh : ((resolveComps [] p, b).1 == resolveComps [] q) = false := by
    simpa using fun hc => h hc.symm
  simp [hh]

/-! ### Derivation cache lemmas (local `optimize_media_and_cache`) -/

theorem optimize_hit (T : Transcoder) (fs : FS) (c s f : String)
    (h1 : fsExists fs (srcPath c s f) = true)
    (h2 : fsExists fs (optPath c s f) = true) :
    optimize_media_and_cache T fs c s f
      = (OptResult.ok (optAddr c s f), fs, 0) := by
  unfold optimize_media_and_cache
  unfold srcPath at h1
  unfold optPath optName at h2
  simp only [h1, h2, optAddr, optPath, optName, not_true, if_false, if_true]

theorem optimize_miss (T : Transcoder) (fs : FS) (c s f : String)
    (h1 : fsExists fs (srcPath c s f) = true)
    (h2 : fsExists fs (optPath c s f) = false) :
    optimize_media_and_cache T fs c s f
      = (match (if VIDEO_EXTS.contains (strLower (pySuffix f)) then
            T.videoOpt ((fsFind fs (srcPath c s f)).getD [])
          else T.imageOpt ((fsFind fs (srcPath c s f)).getD [])) with
        | Except.ok b => (OptResult.ok (optAddr c s f),
            fsWrite fs (optPath c s f) b, 1)
        | Except.error e => (OptResult.failed e, fs, 1)) := by
  unfold optimize_media_and_cache
  unfold srcPath at h1 ⊢
  unfold optPath optName at h2
  simp only [h1, h2, optAddr, optPath, optName, not_true, if_false, if_true]
  split <;> simp_all

/-- Claim C5: derivation is idempotent by name.  For any source that
exists, each call performs at most one external invocation; an existing
derivative short-circuits with zero work and no state change; a
successful call returns the deterministic `opt_{stem}` address, and the
immediately following call for the same source is a pure cache hit
returning the same address with zero external work. -/
theorem C5_derivative_idempotent (T : Transcoder) (fs : FS) (c s f : String)
    (hsrc : fsExists fs (srcPath c s f) = true) :
    derivationSpec T fs c s f := by
  unfold derivationSpec
  by_cases hout : fsExists fs (optPath c s f) = true
  · rw [optimize_hit T fs c s f hsrc hout]
    refine ⟨by omega, fun _ => ⟨rfl, rfl, rfl⟩, ?_⟩
    intro a ha
    have haddr : a = optAddr c s f := by
      cases ha
      rfl
    subst haddr
    exact ⟨rfl, optimize_hit T fs c s f hsrc hout⟩
  · have hout' : fsExists fs (optPath c s f) = false := by
      simpa using hout
    rw [optimize_miss T fs c s f hsrc hout']
    cases htr : (if VIDEO_EXTS.contains (strLower (pySuffix f)) then
        T.videoOpt ((fsFind fs (srcPath c s f)).getD [])
      else T.imageOpt ((fsFind fs (srcPath c s f)).getD [])) with
    | ok b =>
      simp only [htr]
      refine ⟨by omega, fun hc => absurd hc (by simp [hout']), ?_⟩
      intro a ha
      have haddr : a = optAddr c s f := by
        cases ha
        rfl
      subst haddr
      refine ⟨rfl, ?_⟩
      have hsrc1 : fsExists (fsWrite fs (optPath c s f) b) (srcPath c s f) = true :=
        fsExists_fsWrite fs (optPath c s f) (srcPath c s f) b hsrc
      have hout1 : fsExists (fsWrite fs (optPath c s f) b) (optPath c s f) = true :=
        fsExists_fsWrite_self fs (optPath c s f) b
      exact optimize_hit T (fsWrite fs (optPath c s f) b) c s f hsrc1 hout1
    | error e =>
      simp only [htr]
      exact ⟨by omega, fun hc => absurd hc (by simp [hout']),
        fun a ha => by cases ha⟩

/-- Witness for C5 at a concrete input: a stored image `a.jpg` for
tenant acme, with the identity transcoder. -/
theorem C5_derivative_idempotent_witness :
    fsExists acmeFs (srcPath ("acme") ("s1") ("a.jpg")) = true
    ∧ derivationSpec idTranscoder acmeFs ("acme") ("s1") ("a.jpg") :=
  ⟨by decide,
    C5_derivative_idempotent idTranscoder acmeFs ("acme") ("s1") ("a.jpg")
      (by decide)⟩

/-! ### NameCleaner lemmas -/

theorem allowedChar_replChar (c : Char) : allowedChar (replChar c) = true := by
  unfold replChar
  split
  · assumption
  · decide

theorem secure_nameCore_allowed (l : List Char) :
    ∀ c ∈ secure_nameCore l, allowedChar c = true := by
  unfold secure_nameCore
  split
  · decide
  · intro c hc
    rcases List.mem_map.mp hc with ⟨a, _, rfl⟩
    exact allowedChar_replChar a

theorem allowedChar_ne_slash (c : Char) (h : allowedChar c = true) :
    c ≠ ('/') := by
  intro hc
  subst hc
  exact absurd h (by decide)

theorem splitSlashCore_no_slash (l : List Char) :
    ∀ acc : List Char, (∀ c ∈ l, c ≠ ('/')) →
    splitSlashCore acc l = [acc.reverse ++ l] := by
  induction l with
  | nil => intro acc _; simp [splitSlashCore]
  | cons c cs ih =>
    intro acc h
    unfold splitSlashCore
    rw [if_neg (h c (List.mem_cons_self c cs))]
    rw [ih (c :: acc) (fun x hx => h x (List.mem_cons_of_mem c hx))]
    simp

theorem getLast?_mem {α : Type} (l : List α) (a : α) (h : l.getLast? = some a) :
    a ∈ l := by
  induction l with
  | nil => cases h
  | cons x xs ih =>
    cases xs with
    | nil =>
      cases h
      exact List.mem_singleton.mpr rfl
    | cons y ys =>
      rw [List.getLast?_cons_cons] at h
      exact List.mem_cons_of_mem x (ih h)

theorem pyName_ne_dot (l : List Char) : pyName l ≠ [('.')] := by
  unfold pyName
  cases hg : (pathParts l).getLast? with
  | none => simp
  | some x =>
    simp only [Option.getD_some]
    intro hx
    subst hx
    have hmem := getLast?_mem _ _ hg
    have hpred := (List.mem_filter.mp hmem).2
    exact absurd hpred (by decide)

theorem map_replChar_allowed (m : List Char)
    (h : ∀ c ∈ m, allowedChar c = true) : m.map replChar = m := by
  rw [List.map_congr_left (g := id) (fun a ha => by
    unfold replChar
    rw [if_pos (h a ha)]
    rfl)]
  exact List.map_id m

theorem secure_nameCore_ne_dot (l : List Char) :
    secure_nameCore l ≠ [('.')] := by
  unfold secure_nameCore
  split
  · decide
  · intro h
    rcases hp : pyName l with _ | ⟨a, t⟩
    · rw [hp] at h
      exact absurd h (by decide)
    · rcases t with _ | ⟨b, t'⟩
      · rw [hp] at h
        simp only [List.map_cons, List.map_nil] at h
        have ha : replChar a = ('.') := by
          have := List.head_eq_of_cons_eq h
          exact this
        have : a = ('.') := by
          unfold replChar at ha
          by_cases hal : allowedChar a = true
          · rwa [if_pos hal] at ha
          · rw [if_neg hal] at ha
            exact absurd ha (by decide)
        subst this
        exact pyName_ne_dot l hp
      · rw [hp] at h
        simp at h

theorem secure_nameCore_idem (l : List Char) (h : secure_nameCore l ≠ []) :
    secure_nameCore (secure_nameCore l) = secure_nameCore l := by
  by_cases hl : l = []
  · subst hl
    decide
  · set y := secure_nameCore l with hy
    have hall : ∀ c ∈ y, allowedChar c = true := secure_nameCore_allowed l
    have hdot : y ≠ [('.')] := secure_nameCore_ne_dot l
    have hslash : ∀ c ∈ y, c ≠ ('/') := fun c hc =>
      allowedChar_ne_slash c (hall c hc)
    show secure_nameCore y = y
    unfold secure_nameCore
    rw [if_neg h]
    have hparts : pathParts y = [y] := by
      unfold pathParts
      rw [splitSlashCore_no_slash y [] hslash]
      simp [h, hdot]
    have hname : pyName y = y := by
      unfold pyName
      rw [hparts]
      rfl
    rw [hname]
    exact map_replChar_allowed y hall

theorem find?_filter_none {α : Type} (p q : α → Bool) (l : List α)
    (h : l.find? p = none) : (l.filter q).find? p = none := by
  rw [List.find?_eq_none] at h ⊢
  intro x hx
  exact h x (List.mem_of_mem_filter hx)

/-- Claim C7 counterexample: `secure_name` does NOT map all-stripped
input to the fallback token, and its output can be empty.  For the input
`"/"` (a bare directory reference) the basename is empty, the falsy
guard was already passed, and the function returns the empty string
rather than `"file"`. -/
theorem C7_empty_output_cex :
    secure_name ("/") = ("") ∧ secure_name ("/") ≠ ("file") := by
  decide

/-- Claim C7 (amended): `secure_name` is total; only the EMPTY input
maps to the fallback `"file"`; an input whose pathlib basename is empty
(such as `"/"` or `"."`) yields the empty string, so the output is not
always non-empty; every character of every output lies in
`[A-Za-z0-9._-]`, and the output is non-empty whenever the basename is
non-empty. -/
theorem C7_cleaner_amended :
    secure_name ("") = ("file")
    ∧ secure_name ("/") = ("")
    ∧ (∀ s : String, ∀ c ∈ (secure_name s).data, allowedChar c = true)
    ∧ (∀ s : String, pyName s.data ≠ [] → secure_name s ≠ ("")) := by
  refine ⟨by decide, by decide, ?_, ?_⟩
  · intro s c hc
    exact secure_nameCore_allowed s.data c hc
  · intro s h hceq
    apply h
    have hdata : secure_nameCore s.data = [] := by
      have := congrArg String.data hceq
      simpa [secure_name] using this
    unfold secure_nameCore at hdata
    by_cases hl : s.data = []
    · rw [if_pos hl] at hdata
      exact absurd hdata (by decide)
    · rw [if_neg hl] at hdata
      exact List.map_eq_nil_iff.mp hdata

/-- Witness for the amended C7 at the input `"a?b"`, whose basename is
non-empty: the output is non-empty. -/
theorem C7_cleaner_amended_witness :
    pyName (("a?b").data) ≠ [] ∧ secure_name ("a?b") ≠ ("") :=
  ⟨by decide, C7_cleaner_amended.2.2.2 ("a?b") (by decide)⟩

/-- Claim C8 counterexample: `secure_name` is not idempotent on all
strings.  `secure_name "/" = ""` but `secure_name "" = "file"`, so
applying the cleaner twice to `"/"` changes the result. -/
theorem C8_not_idempotent_cex :
    secure_name (secure_name ("/")) ≠ secure_name ("/") := by
  decide

/-- Claim C8 (amended): `secure_name` is idempotent on every input
whose cleaned form is non-empty (the only exception being inputs such as
`"/"` or `"."` that clean to the empty string, which the second
application maps to `"file"`). -/
theorem C8_idempotent_amended (s : String) (h : secure_name s ≠ ("")) :
    secure_name (secure_name s) = secure_name s := by
  have hne : secure_nameCore s.data ≠ [] := by
    intro hc
    apply h
    apply String.ext
    simpa [secure_name] using hc
  apply String.ext
  exact secure_nameCore_idem s.data hne

/-- Witness for the amended C8 at `"a b.jpg"`. -/
theorem C8_idempotent_amended_witness :
    secure_name ("a b.jpg") ≠ ("")
    ∧ secure_name (secure_name ("a b.jpg")) = secure_name ("a b.jpg") :=
  ⟨by decide, C8_idempotent_amended ("a b.jpg") (by decide)⟩

/-- Claim C10: tenant identity at registration is the sanitized,
lowercased company string.  For any two raw company names with the same
`secure_name(...).lower()` form and a database in which that tenant does
not yet exist, the first registration stores a row with daily limit 500
and returns the fresh key, and the second registration returns that same
key without changing the database. -/
theorem C10_register_idempotent (db : AuthDB) (c1 c2 k1 k2 : String)
    (hsame : strLower (secure_name c1) = strLower (secure_name c2))
    (hnew : db.keys.find? (fun r => r.1 == strLower (secure_name c1)) = none) :
    (register_post db c1 k1).1 = k1
    ∧ (register_post (register_post db c1 k1).2 c2 k2).1 = k1
    ∧ (register_post (register_post db c1 k1).2 c2 k2).2
        = (register_post db c1 k1).2
    ∧ (strLower (secure_name c1), k1, 500) ∈ (register_post db c1 k1).2.keys := by
  have h1 : register_post db c1 k1
      = (k1, create_api_key db (strLower (secure_name c1)) k1 500) := by
    unfold register_post
    simp only [hnew]
  have hkeys : (create_api_key db (strLower (secure_name c1)) k1 500).keys
      = db.keys.filter (fun r => r.2.1 != k1)
        ++ [(strLower (secure_name c1), k1, 500)] := rfl
  have hfind2 : (create_api_key db (strLower (secure_name c1)) k1 500).keys.find?
        (fun r => r.1 == strLower (secure_name c1))
      = some (strLower (secure_name c1), k1, 500) := by
    rw [hkeys, List.find?_append,
      find?_filter_none _ _ _ hnew]
    simp [List.find?]
  have h2 : register_post (create_api_key db (strLower (secure_name c1)) k1 500) c2 k2
      = (k1, create_api_key db (strLower (secure_name c1)) k1 500) := by
    unfold register_post
    simp only [← hsame, hfind2]
  refine ⟨by rw [h1], by rw [h1, h2], by rw [h1, h2], ?_⟩
  rw [h1, hkeys]
  exact List.mem_append.mpr (Or.inr (List.mem_singleton.mpr rfl))

/-- Witness for C10: registering `Acme Corp` and then `acme_corp`
returns the first key both times. -/
theorem C10_register_idempotent_witness :
    strLower (secure_name ("Acme Corp")) = strLower (secure_name ("acme_corp"))
    ∧ (register_post (register_post noKeysDb ("Acme Corp") ("K1")).2
        ("acme_corp") ("K2")).1 = ("K1") :=
  ⟨by decide,
    (C10_register_idempotent noKeysDb ("Acme Corp") ("acme_corp") ("K1") ("K2")
      (by decide) (by decide)).2.1⟩

/-- Claim C2 (amended): only upload and the JSON listing are gated.
For those two, the `verify_api_key` dependency (key lookup, tenant
check, usage increment) runs first: a gate failure makes the endpoint
return the gate's error with the filesystem untouched, and the auth
state such a request leaves behind is exactly the gate's output.  The
optimize endpoint never touches the auth state, and the download
endpoint leaves the whole state unchanged — neither takes an api key. -/
theorem C2_quota_gate_amended :
    (∀ (db : AuthDB) (fs : FS) (tagAdd : String → Except String (List String))
        (company survey user_id oneF twoF : String) (contents : Bytes)
        (content_type x_api_key today : String) (e : AuthFail),
      (verify_api_key db company x_api_key today).1 = Except.error e →
      upload_file db fs tagAdd company survey user_id oneF twoF contents
          content_type x_api_key today
        = (Except.error (authErr e),
           (verify_api_key db company x_api_key today).2, fs))
    ∧ (∀ (db : AuthDB) (fs : FS) (tagAdd : String → Except String (List String))
        (company survey user_id oneF twoF : String) (contents : Bytes)
        (content_type x_api_key today : String),
      (upload_file db fs tagAdd company survey user_id oneF twoF contents
          content_type x_api_key today).2.1
        = (verify_api_key db company x_api_key today).2)
    ∧ (∀ (db : AuthDB) (fs : FS) (tagGet : String → Except String (List String))
        (company survey x_api_key today user_id : String) (limit offset : Nat)
        (e : AuthFail),
      (verify_api_key db company x_api_key today).1 = Except.error e →
      (files_json db fs tagGet company survey x_api_key today user_id
          limit offset).1 = Except.error (authErr e))
    ∧ (∀ (db : AuthDB) (fs : FS) (tagGet : String → Except String (List String))
        (company survey x_api_key today user_id : String) (limit offset : Nat),
      (files_json db fs tagGet company survey x_api_key today user_id
          limit offset).2 = (verify_api_key db company x_api_key today).2)
    ∧ (∀ (T : Transcoder) (st : SysState) (company survey filename : String),
      (optimize_endpoint T st company survey filename).2.auth = st.auth)
    ∧ (∀ (st : SysState) (company survey path : String),
      (download_endpoint st company survey path).2 = st) := by
  refine ⟨?_, ?_, ?_, ?_, ?_, ?_⟩
  · intro db fs tagAdd company survey user_id oneF twoF contents ct key today e h
    rcases hv : verify_api_key db company key today with ⟨r, db'⟩
    rw [hv] at h
    simp only at h
    subst h
    simp [upload_file, hv]
  · intro db fs tagAdd company survey user_id oneF twoF contents ct key today
    rcases hv : verify_api_key db company key today with ⟨r, db'⟩
    cases r with
    | error e => simp [upload_file, hv]
    | ok u =>
      simp only [upload_file, hv]
      repeat' split
      all_goals rfl
  · intro db fs tagGet company survey key today user_id limit offset e h
    rcases hv : verify_api_key db company key today with ⟨r, db'⟩
    rw [hv] at h
    simp only at h
    subst h
    simp [files_json, hv]
  · intro db fs tagGet company survey key today user_id limit offset
    rcases hv : verify_api_key db company key today with ⟨r, db'⟩
    cases r with
    | error e => simp [files_json, hv]
    | ok u =>
      simp only [files_json, hv]
      repeat' split
      all_goals rfl
  · intro T st company survey filename
    rcases ho : optimize_media_and_cache T st.fs
        (strLower (secure_name company)) (strLower (secure_name survey))
        filename with ⟨r, fs', w⟩
    cases r <;> simp [optimize_endpoint, ho]
  · intro st company survey path
    rfl

/-- Witness for the amended C2: with no keys registered, the gate fails
with invalid-key and the upload endpoint returns exactly that error with
the filesystem untouched. -/
theorem C2_quota_gate_amended_witness :
    (verify_api_key noKeysDb ("acme") ("K") ("d0")).1
        = Except.error AuthFail.invalidKey
    ∧ upload_file noKeysDb [] tagFail ("acme") ("s1") ("u1") ("") ("a.jpg")
        [1] ("image/jpeg") ("K") ("d0")
      = (Except.error (authErr AuthFail.invalidKey),
         (verify_api_key noKeysDb ("acme") ("K") ("d0")).2, []) :=
  ⟨by decide,
    C2_quota_gate_amended.1 noKeysDb [] tagFail ("acme") ("s1") ("u1") ("")
      ("a.jpg") [1] ("image/jpeg") ("K") ("d0") AuthFail.invalidKey (by decide)⟩

/-- Claim C3: for a known key bound to the requested company, one gated
call commits exactly one increment to today's counter (and touches no
other counter, never decreasing any), and is accepted exactly when the
new count is within the daily limit; an over-limit call is rejected as
quota-exceeded reporting the over-limit count (e.g. 501 with limit 500)
while the increment stays committed. -/
theorem C3_fail_at_n_plus_one (db : AuthDB) (company api_key today : String)
    (limit : Nat)
    (h : get_key_record db api_key = some (company, api_key, limit)) :
    quotaCallSpec db company api_key today limit := by
  have hf : db.keys.find? (fun r => r.2.1 == api_key)
      = some (company, api_key, limit) := h
  have hev : verify_api_key db company api_key today =
      ((if db.usage api_key today + 1 ≤ limit
        then Except.ok (db.usage api_key today + 1, limit)
        else Except.error
          (AuthFail.quotaExceeded (db.usage api_key today + 1) limit)),
       { keys := db.keys,
         usage := fun k d =>
           if k = api_key ∧ d = today then db.usage k d + 1
           else db.usage k d }) := by
    unfold verify_api_key increment_usage_and_check
    rw [h, hf]
    by_cases hn : db.usage api_key today + 1 ≤ limit <;> simp [hn]
  unfold quotaCallSpec
  rw [hev]
  refine ⟨by simp, ?_, ?_, rfl, ?_, ?_⟩
  · intro k d hkd
    simp only [if_neg hkd]
  · intro k d
    by_cases hkd : k = api_key ∧ d = today <;> simp [hkd]
  · intro hle
    simp [hle]
  · intro hlt
    have : ¬ (db.usage api_key today + 1 ≤ limit) := by omega
    simp [this]

/-- Witness for C3: the 501st same-day request with key `K` (limit 500,
500 already used on day `d0`) is rejected with usedToday 501, and the
501st increment is persisted. -/
theorem C3_fail_at_n_plus_one_witness :
    get_key_record acmeDb ("K") = some (("acme"), ("K"), 500)
    ∧ quotaCallSpec acmeDb ("acme") ("K") ("d0") 500 :=
  ⟨by decide, C3_fail_at_n_plus_one acmeDb ("acme") ("K") ("d0") 500 (by decide)⟩

/-! ### Decimal representation and anti-overwrite loop lemmas -/

theorem parseNat_append_digit (xs : List Char) (c : Char) :
    parseNat (xs ++ [c]) = 10 * parseNat xs + (c.toNat - 48) := by
  unfold parseNat
  rw [List.foldl_append]
  rfl

theorem digitCh_toNat : ∀ d, d < 10 → (digitCh d).toNat - 48 = d := by
  decide

theorem parse_natReprCore : ∀ fuel n, n < 10 ^ fuel →
    parseNat (natReprCore fuel n) = n := by
  intro fuel
  induction fuel with
  | zero =>
    intro n hn
    interval_cases n
    rfl
  | succ fuel ih =>
    intro n hn
    unfold natReprCore
    by_cases h : n < 10
    · rw [if_pos h]
      have : parseNat [digitCh n] = (digitCh n).toNat - 48 := by
        unfold parseNat
        simp
      rw [this, digitCh_toNat n h]
    · rw [if_neg h]
      rw [parseNat_append_digit]
      have hdiv : n / 10 < 10 ^ fuel := by
        rw [Nat.div_lt_iff_lt_mul (by omega)]
        calc n < 10 ^ (fuel + 1) := hn
        _ = 10 ^ fuel * 10 := by rw [Nat.pow_succ]
      rw [ih (n / 10) hdiv, digitCh_toNat (n % 10) (Nat.mod_lt n (by omega))]
      omega

theorem natRepr_inj (m n : Nat) (h : natRepr m = natRepr n) : m = n := by
  have hm : m < 10 ^ (m + 1) :=
    lt_trans (Nat.lt_pow_self (by omega) m) (Nat.pow_lt_pow_succ (by omega))
  have hn : n < 10 ^ (n + 1) :=
    lt_trans (Nat.lt_pow_self (by omega) n) (Nat.pow_lt_pow_succ (by omega))
  have hd : natReprCore (m + 1) m = natReprCore (n + 1) n :=
    congrArg String.data h
  calc m = parseNat (natReprCore (m + 1) m) := (parse_natReprCore _ m hm).symm
  _ = parseNat (natReprCore (n + 1) n) := by rw [hd]
  _ = n := parse_natReprCore _ n hn

theorem resolveComps_cons (acc : List String) (c : String) (rest : List String) :
    resolveComps acc (c :: rest)
      = if c = ("") ∨ c = (".") then resolveComps acc rest
        else if c = ("..") then resolveComps acc.dropLast rest
        else resolveComps (acc ++ [c]) rest := rfl

theorem resolveComps_append (l1 l2 : List String) : ∀ acc,
    resolveComps acc (l1 ++ l2) = resolveComps (resolveComps acc l1) l2 := by
  induction l1 with
  | nil => intro acc; rfl
  | cons c cs ih =>
    intro acc
    rw [List.cons_append, resolveComps_cons acc c (cs ++ l2),
      resolveComps_cons acc c cs]
    by_cases h1 : c = ("") ∨ c = (".")
    · rw [if_pos h1, if_pos h1]
      exact ih acc
    · rw [if_neg h1, if_neg h1]
      by_cases h2 : c = ("..")
      · rw [if_pos h2, if_pos h2]
        exact ih _
      · rw [if_neg h2, if_neg h2]
        exact ih _

theorem resolveComps_single (acc : List String) (seg : String)
    (h1 : ¬ (seg = ("") ∨ seg = ("."))) (h2 : seg ≠ ("..")) :
    resolveComps acc [seg] = acc ++ [seg] := by
  unfold resolveComps
  rw [if_neg h1, if_neg h2]
  rfl

theorem underscore_mem_candName (base ext : String) (j : Nat) :
    ('_') ∈ (candName base ext (j + 1)).data := by
  unfold candName
  simp only [String.data_append]
  refine List.mem_append.mpr (Or.inl ?_)
  refine List.mem_append.mpr (Or.inl ?_)
  refine List.mem_append.mpr (Or.inr ?_)
  decide

theorem candName_succ_normal (base ext : String) (j : Nat) :
    ¬ (candName base ext (j + 1) = ("") ∨ candName base ext (j + 1) = ("."))
    ∧ candName base ext (j + 1) ≠ ("..") := by
  have hm := underscore_mem_candName base ext j
  constructor
  · rintro (h | h) <;> rw [h] at hm <;> exact absurd hm (by decide)
  · intro h
    rw [h] at hm
    exact absurd hm (by decide)

theorem candName_succ_inj (base ext : String) (j k : Nat)
    (h : candName base ext (j + 1) = candName base ext (k + 1)) : j = k := by
  unfold candName at h
  have hd := congrArg String.data h
  simp only [String.data_append] at hd
  have h1 := List.append_cancel_right hd
  have h2 := List.append_cancel_left h1
  have : natRepr (j + 1) = natRepr (k + 1) := String.ext h2
  have := natRepr_inj (j + 1) (k + 1) this
  omega

theorem fsExists_mem (fs : FS) (p : List String)
    (h : fsExists fs p = true) :
    resolveComps [] p ∈ fs.map Prod.fst := by
  unfold fsExists fsFind at h
  cases hf : List.find? (fun e : List String × Bytes => e.1 == resolveComps [] p) fs with
  | none => rw [hf] at h; cases h
  | some e =>
    have hpred : (e.1 == resolveComps [] p) = true :=
      List.find?_some (p := fun x : List String × Bytes => x.1 == resolveComps [] p) hf
    have he : e.1 = resolveComps [] p := by simpa using hpred
    rw [← he]
    exact List.mem_map_of_mem Prod.fst (List.mem_of_find?_eq_some hf)

theorem exists_free_candidate (fs : FS) (dir : List String) (base ext : String) :
    ∃ j, 1 ≤ j ∧ j ≤ fs.length + 1
      ∧ fsExists fs (dir ++ [candName base ext j]) = false := by
  by_contra hcon
  push_neg at hcon
  have htaken : ∀ j, 1 ≤ j → j ≤ fs.length + 1 →
      fsExists fs (dir ++ [candName base ext j]) = true := by
    intro j h1 h2
    have := hcon j h1 h2
    cases hE : fsExists fs (dir ++ [candName base ext j])
    · exact absurd hE this
    · rfl
  -- each taken candidate's resolved path is a distinct key of fs
  have hres : ∀ j, 1 ≤ j →
      resolveComps [] (dir ++ [candName base ext j])
        = resolveComps [] dir ++ [candName base ext j] := by
    intro j h1
    obtain ⟨j', rfl⟩ : ∃ j', j = j' + 1 := ⟨j - 1, by omega⟩
    rw [resolveComps_append dir [candName base ext (j' + 1)]]
    exact resolveComps_single _ _ (candName_succ_normal base ext j').1
      (candName_succ_normal base ext j').2
  set g : Nat → List String :=
    fun j => resolveComps [] dir ++ [candName base ext j] with hg
  have hsub : (Finset.Icc 1 (fs.length + 1)).image g
      ⊆ (fs.map Prod.fst).toFinset := by
    intro x hx
    rcases Finset.mem_image.mp hx with ⟨j, hj, rfl⟩
    rcases Finset.mem_Icc.mp hj with ⟨hj1, hj2⟩
    rw [List.mem_toFinset, hg]
    have := fsExists_mem fs (dir ++ [candName base ext j]) (htaken j hj1 hj2)
    rwa [hres j hj1] at this
  have hinj : Set.InjOn g ((Finset.Icc 1 (fs.length + 1)) : Finset Nat) := by
    intro j1 hj1 j2 hj2 heq
    rcases Finset.mem_coe.mp hj1 with hj1'
    rcases Finset.mem_coe.mp hj2 with hj2'
    have h11 := (Finset.mem_Icc.mp hj1').1
    have h21 := (Finset.mem_Icc.mp hj2').1
    obtain ⟨a, rfl⟩ : ∃ a, j1 = a + 1 := ⟨j1 - 1, by omega⟩
    obtain ⟨b, rfl⟩ : ∃ b, j2 = b + 1 := ⟨j2 - 1, by omega⟩
    rw [hg] at heq
    simp only at heq
    have := List.append_cancel_left heq
    have hc : candName base ext (a + 1) = candName base ext (b + 1) := by
      simpa using this
    have := candName_succ_inj base ext a b hc
    omega
  have hcard1 : ((Finset.Icc 1 (fs.length + 1)).image g).card
      = fs.length + 1 := by
    rw [Finset.card_image_of_injOn hinj, Nat.card_Icc]
    omega
  have hcard2 : ((Finset.Icc 1 (fs.length + 1)).image g).card
      ≤ (fs.map Prod.fst).toFinset.card := Finset.card_le_card hsub
  have hcard3 : (fs.map Prod.fst).toFinset.card ≤ fs.length := by
    calc (fs.map Prod.fst).toFinset.card ≤ (fs.map Prod.fst).length :=
      List.toFinset_card_le _
    _ = fs.length := List.length_map _ _
  omega

theorem findFreeIdx_free (fs : FS) (dir : List String) (base ext : String) :
    ∀ fuel k,
      (∃ j, j < fuel ∧ fsExists fs (dir ++ [candName base ext (k + j)]) = false) →
      fsExists fs (dir ++ [candName base ext (findFreeIdx fs dir base ext k fuel)])
        = false := by
  intro fuel
  induction fuel with
  | zero =>
    intro k ⟨j, hj, _⟩
    omega
  | succ fuel ih =>
    intro k ⟨j, hj, hfree⟩
    unfold findFreeIdx
    by_cases hE : fsExists fs (dir ++ [candName base ext k]) = true
    · rw [if_pos hE]
      apply ih (k + 1)
      rcases j with _ | j'
      · rw [Nat.add_zero] at hfree
        rw [hfree] at hE
        cases hE
      · exact ⟨j', by omega, by
          have h : k + 1 + j' = k + (j' + 1) := by omega
          rw [h]
          exact hfree⟩
    · rw [if_neg hE]
      cases h2 : fsExists fs (dir ++ [candName base ext k])
      · rfl
      · exact absurd h2 hE

theorem upload_save_local_eq (fs : FS) (c s chosen : String) (b : Bytes) :
    upload_save_local fs c s chosen b
      = (candName (pyStem chosen) (pySuffix chosen)
          (findFreeIdx fs [("uploads"), c, s] (pyStem chosen) (pySuffix chosen)
            0 (fs.length + 2)),
         fsWrite fs ([("uploads"), c, s]
          ++ [candName (pyStem chosen) (pySuffix chosen)
            (findFreeIdx fs [("uploads"), c, s] (pyStem chosen) (pySuffix chosen)
              0 (fs.length + 2))]) b) := rfl

theorem upload_save_local_free (fs : FS) (c s chosen : String) (b : Bytes) :
    fsExists fs ([("uploads"), c, s] ++ [(upload_save_local fs c s chosen b).1])
      = false := by
  rw [upload_save_local_eq]
  apply findFreeIdx_free
  rcases exists_free_candidate fs [("uploads"), c, s] (pyStem chosen)
      (pySuffix chosen) with ⟨j, hj1, hj2, hfree⟩
  exact ⟨j, by omega, by simpa using hfree⟩

/-- Claim C6: the local put never overwrites.  For every prior
filesystem, uploading twice under the same chosen name picks a free
target both times (the first existing name is never overwritten, an
incrementing `_1`, `_2`, ... suffix is inserted before the extension),
the second call's final name differs from the first's, and both byte
contents remain independently retrievable afterwards. -/
theorem C6_upload_never_overwrites (fs : FS) (c s chosen : String)
    (b1 b2 : Bytes) :
    fsExists fs ([("uploads"), c, s]
        ++ [(upload_save_local fs c s chosen b1).1]) = false
    ∧ fsExists (upload_save_local fs c s chosen b1).2 ([("uploads"), c, s]
        ++ [(upload_save_local (upload_save_local fs c s chosen b1).2
              c s chosen b2).1]) = false
    ∧ (upload_save_local (upload_save_local fs c s chosen b1).2
        c s chosen b2).1 ≠ (upload_save_local fs c s chosen b1).1
    ∧ fsFind (upload_save_local (upload_save_local fs c s chosen b1).2
        c s chosen b2).2
        ([("uploads"), c, s] ++ [(upload_save_local fs c s chosen b1).1])
      = some b1
    ∧ fsFind (upload_save_local (upload_save_local fs c s chosen b1).2
        c s chosen b2).2
        ([("uploads"), c, s]
          ++ [(upload_save_local (upload_save_local fs c s chosen b1).2
                c s chosen b2).1])
      = some b2 := by
  set dir : List String := [("uploads"), c, s] with hdir
  set a1 := (upload_save_local fs c s chosen b1).1 with ha1
  set fs1 := (upload_save_local fs c s chosen b1).2 with hfs1
  set a2 := (upload_save_local fs1 c s chosen b2).1 with ha2
  set fs2 := (upload_save_local fs1 c s chosen b2).2 with hfs2
  have hfree1 : fsExists fs (dir ++ [a1]) = false :=
    upload_save_local_free fs c s chosen b1
  have hfree2 : fsExists fs1 (dir ++ [a2]) = false :=
    upload_save_local_free fs1 c s chosen b2
  have hw1 : fs1 = fsWrite fs (dir ++ [a1]) b1 := rfl
  have hw2 : fs2 = fsWrite fs1 (dir ++ [a2]) b2 := rfl
  have hself1 : fsExists fs1 (dir ++ [a1]) = true := by
    rw [hw1]
    exact fsExists_fsWrite_self fs (dir ++ [a1]) b1
  have hne : a2 ≠ a1 := by
    intro he
    rw [he] at hfree2
    rw [hfree2] at hself1
    cases hself1
  have hres_ne : resolveComps [] (dir ++ [a1]) ≠ resolveComps [] (dir ++ [a2]) := by
    intro he
    have : fsExists fs1 (dir ++ [a2]) = true := by
      unfold fsExists fsFind
      unfold fsExists fsFind at hself1
      rw [← he]
      exact hself1
    rw [this] at hfree2
    cases hfree2
  refine ⟨hfree1, hfree2, hne, ?_, ?_⟩
  · rw [hw2, fsFind_fsWrite_ne fs1 (dir ++ [a2]) (dir ++ [a1]) b2 hres_ne,
      hw1]
    exact fsFind_fsWrite_self fs (dir ++ [a1]) b1
  · rw [hw2]
    exact fsFind_fsWrite_self fs1 (dir ++ [a2]) b2

/-- Claim C1 (code bug): path confinement fails in the local backend.
With the only stored file at `uploads/c/sx/secret.txt` — outside the
collection root `uploads/c/s` — the download route for tenant `c`,
collection `s` and caller-supplied name `../sx/secret.txt` resolves to
that outside path, is NOT rejected by the `startswith` string-prefix
check (the root string is a character prefix of the sibling's string),
reaches the filesystem and serves the secret bytes; the resolved path is
not a descendant of the root (root segments are not a segment prefix).
The optimize path performs no confinement check at all. -/
theorem C1_traversal_served :
    download_file siblingFs ("c") ("s") ("../sx/secret.txt")
        = DownloadResult.file [("uploads"), ("c"), ("sx"), ("secret.txt")] [9, 9]
    ∧ ([("uploads"), ("c"), ("s")] : List String).isPrefixOf
        [("uploads"), ("c"), ("sx"), ("secret.txt")] = false := by
  decide

/-- Claim C4 (code bug): the insert/increment/read triple is not one
atomic unit.  Two concurrent callers against a key with limit 1, under
the schedule A-insert, A-update, B-insert, B-update, A-select, B-select
(each single sqlite statement is atomic, the triple is not): the counter
is incremented exactly twice, but BOTH callers' SELECTs observe the same
count 2, so both are rejected — 0 accepts instead of `min 2 1 = 1`.
Under the fully serial schedule the first caller observes 1 and is
accepted, showing the failure is an interleaving effect. -/
theorem C4_nonatomic_quota_race :
    qRun ⟨none, ⟨0, 0⟩, ⟨0, 0⟩⟩ [true, true, false, false, true, false]
        = ⟨some 2, ⟨3, 2⟩, ⟨3, 2⟩⟩
    ∧ qAccepted 1 ⟨3, 2⟩ = false
    ∧ qRun ⟨none, ⟨0, 0⟩, ⟨0, 0⟩⟩ [true, true, true, false, false, false]
        = ⟨some 2, ⟨3, 1⟩, ⟨3, 2⟩⟩
    ∧ qAccepted 1 ⟨3, 1⟩ = true
    ∧ Nat.min 2 1 = 1 := by
  decide

/-- Claim C9 (code bug): a tag-store failure DOES fail the enclosing
operation.  With a valid key and a tag store whose writes raise, the
upload endpoint returns the propagated tag-store error even though the
file was already written; the JSON listing likewise propagates the
per-file tag lookup failure; only the HTML listing swallows it and
degrades to an empty tag set. -/
theorem C9_tag_failure_blocks_upload :
    (upload_file acmeDb [] tagFail ("acme") ("s1") ("u1") ("") ("photo.jpg")
        [7] ("image/jpeg") ("K") ("d9")).1
      = Except.error (ApiErr.tagStoreError ("db locked"))
    ∧ (upload_file acmeDb [] tagFail ("acme") ("s1") ("u1") ("") ("photo.jpg")
        [7] ("image/jpeg") ("K") ("d9")).2.2
      = [([("uploads"), ("acme"), ("s1"), ("u1_photo.jpg")], [7])]
    ∧ (files_json acmeDb [([("uploads"), ("acme"), ("s1"), ("u1_photo.jpg")], [7])]
        tagFail ("acme") ("s1") ("K") ("d9") ("") 100 0).1
      = Except.error (ApiErr.tagStoreError ("db locked"))
    ∧ files_list_template acmeDb
        [([("uploads"), ("acme"), ("s1"), ("u1_photo.jpg")], [7])]
        tagFail ("acme") ("s1") ("K")
      = Except.ok [(("u1_photo.jpg"), [])] := by
  decide

/-- Claim C2 counterexample: the optimize (derivation) endpoint is not
gated by QuotaGate.  Against an auth database with NO keys at all it
still performs the derivation work (the filesystem gains the derivative)
and succeeds, leaving the auth state untouched — so no key lookup,
tenant check or usage increment precedes the work. -/
theorem C2_optimize_ungated :
    (optimize_endpoint idTranscoder ⟨noKeysDb, acmeFs⟩ ("acme") ("s1") ("a.jpg")).1
      = Except.ok ("/api/v1/acme/surveys/s1/download/optimized/opt_a.jpg")
    ∧ (optimize_endpoint idTranscoder ⟨noKeysDb, acmeFs⟩ ("acme") ("s1") ("a.jpg")).2.fs
      ≠ acmeFs
    ∧ (optimize_endpoint idTranscoder ⟨noKeysDb, acmeFs⟩ ("acme") ("s1") ("a.jpg")).2.auth
      = noKeysDb
    ∧ noKeysDb.keys = [] :=
  ⟨by decide, by decide, rfl, rfl⟩

end FileTag
